import Mathlib

/-!
Verification of the BallPoint drill progression engine.

The definitions below are a shallow embedding of the drill progression
logic of `src/App.tsx` (`startDrill`, the `setSession` updater inside
`handleShotRecorded`, `getInstruction`) and of the custom-program builder
`handleCreateCustom` of the drill selector component.

JavaScript conventions mirrored here:
  * optional numeric fields (`targetAttempts?`, `targetMakes?`) become
    `Option Int`; JavaScript truthiness of such a field (`undefined` and
    `0` are falsy) becomes `thresholdTruthy`;
  * a thrown `TypeError` (indexing `steps[currentStepIndex]` out of
    bounds and then reading `.position`) becomes `none` in the
    `Option DrillSession` result; every non-throwing path returns `some`.
-/

namespace BallPoint

/-- The `CourtPosition` string enum of the repository's `types` module
(embedded after the document separator in
`src/components/StatsDashboard.tsx`): members LEFT, CENTER, RIGHT with
the like-named string values, rendered by `posName` below. -/
inductive CourtPosition where
  | LEFT
  | CENTER
  | RIGHT
deriving DecidableEq, Repr

/-- The `ShotResult` string enum of the `types` module (same embedded
source): members MAKE and MISS. -/
inductive ShotResult where
  | MAKE
  | MISS
deriving DecidableEq, Repr

/-- A classified shot event, as recorded by `handleShotRecorded`. -/
structure Shot where
  id : String
  result : ShotResult
  position : CourtPosition
  timestamp : Int
deriving DecidableEq, Repr

/-- One step of a drill program: a zone plus the two optional thresholds
(`targetAttempts?: number`, `targetMakes?: number`). -/
structure DrillStep where
  position : CourtPosition
  targetAttempts : Option Int
  targetMakes : Option Int
deriving DecidableEq, Repr

/-- The session state owned by `App` (`DrillSession` in the source). -/
structure DrillSession where
  id : String
  name : String
  steps : List DrillStep
  currentStepIndex : Nat
  shots : List Shot
  isActive : Bool
  completed : Bool
deriving DecidableEq, Repr

/-- `startDrill` of `src/App.tsx`: the fresh session built for a step
list (the `id` the source takes from the clock is a parameter here). -/
def startDrill (id : String) (steps : List DrillStep) : DrillSession :=
  { id := id
    name := "Training Session"
    steps := steps
    currentStepIndex := 0
    shots := []
    isActive := true
    completed := false }

/-- JavaScript truthiness of an optional numeric field: `undefined` and
`0` are falsy, every other number is truthy. -/
def thresholdTruthy : Option Int → Bool
  | none => false
  | some t => decide (t ≠ 0)

/-- The guarded comparison `field && count >= field` used twice in the
step-completion check of `handleShotRecorded`. -/
def thresholdMet (o : Option Int) (count : Nat) : Bool :=
  match o with
  | none => false
  | some t => decide (t ≠ 0) && decide (t ≤ (count : Int))

/-- Shots of the log taken at position `p` (the `relevantShots` filter). -/
def countPos (l : List Shot) (p : CourtPosition) : Nat :=
  (l.filter (fun x => x.position == p)).length

/-- Made shots of the log taken at position `p` (the `makes` count). -/
def countMakes (l : List Shot) (p : CourtPosition) : Nat :=
  ((l.filter (fun x => x.position == p)).filter
    (fun x => x.result == ShotResult.MAKE)).length

/-- The `setSession` updater of `handleShotRecorded` in `src/App.tsx`,
applied to a non-null session. `none` models the `TypeError` thrown when
`steps[currentStepIndex]` is `undefined`; the early return on
`!session.isActive` yields the session unchanged. The source's local
bindings `attempts` and `makes` (lengths of the `relevantShots` filters
over the updated log) appear here as `countPos` and `countMakes`. -/
def applyShot (s : DrillSession) (e : Shot) : Option DrillSession :=
  if s.isActive = false then some s
  else
    match s.steps[s.currentStepIndex]? with
    | none => none
    | some step =>
      if e.position ≠ step.position then
        some { s with shots := s.shots ++ [e] }
      else
        if thresholdMet step.targetAttempts (countPos (s.shots ++ [e]) step.position)
           || thresholdMet step.targetMakes (countMakes (s.shots ++ [e]) step.position) then
          if s.steps.length ≤ s.currentStepIndex + 1 then
            some { s with shots := s.shots ++ [e],
                          currentStepIndex := s.currentStepIndex + 1,
                          isActive := false, completed := true }
          else
            some { s with shots := s.shots ++ [e],
                          currentStepIndex := s.currentStepIndex + 1 }
        else
          some { s with shots := s.shots ++ [e] }

/-- Sequential application of a list of shot events, left to right, as the
serialized event stream delivers them. -/
def applyShots (s : DrillSession) (l : List Shot) : Option DrillSession :=
  l.foldl (fun acc e => acc.bind (fun st => applyShot st e)) (some s)

/-- The display string of a zone, as interpolated by the template literal
in `getInstruction`: the string value each `CourtPosition` member carries
in the `types` module (`LEFT = 'LEFT'` and so on). -/
def posName : CourtPosition → String
  | CourtPosition.LEFT => "LEFT"
  | CourtPosition.CENTER => "CENTER"
  | CourtPosition.RIGHT => "RIGHT"

/-- Template-literal rendering of an optional number (`undefined` prints
as the string "undefined"). -/
def showOptInt : Option Int → String
  | none => "undefined"
  | some v => toString v

/-- `getInstruction` of `src/App.tsx`: the instruction text derived from
the (possibly absent) session. -/
def getInstruction (s? : Option DrillSession) : String :=
  match s? with
  | none => "Select a drill"
  | some s =>
    if s.completed then "Drill Complete!"
    else
      match s.steps[s.currentStepIndex]? with
      | none => "Loading..."
      | some step =>
        let relevantShots := s.shots.filter (fun x => x.position == step.position)
        let currentCount : Nat :=
          if thresholdTruthy step.targetMakes then
            (relevantShots.filter (fun x => x.result == ShotResult.MAKE)).length
          else relevantShots.length
        let target : Option Int :=
          if thresholdTruthy step.targetMakes then step.targetMakes
          else step.targetAttempts
        "Move to " ++ posName step.position ++ ": " ++ toString currentCount
          ++ " / " ++ showOptInt target

/-- `handleCreateCustom` of the drill selector: rejects an empty position
list (alert and return, building nothing), otherwise builds one step per
position carrying exactly one threshold, chosen by `isMakeBased`. -/
def handleCreateCustom (selectedPositions : List CourtPosition)
    (isMakeBased : Bool) (shotsPerPosition targetMakes : Int) :
    Option (List DrillStep) :=
  if selectedPositions.length = 0 then none
  else
    some (selectedPositions.map (fun pos =>
      if isMakeBased then
        { position := pos, targetAttempts := none, targetMakes := some targetMakes }
      else
        { position := pos, targetAttempts := some shotsPerPosition, targetMakes := none }))

/-- The threshold input's change handler: `parseInt(e.target.value) || 1`
maps a parsed value of `0` (and an unparsable value) to `1` and keeps any
other number, negative numbers included. -/
def thresholdInputUpdate (v : Int) : Int :=
  if v = 0 then 1 else v

/-- The session invariant of the progression engine: the step pointer
stays within bounds, sitting at `steps.length` exactly in the completed
state, and `isActive` is the negation of `completed`. -/
def sessionInv (s : DrillSession) : Prop :=
  s.currentStepIndex ≤ s.steps.length ∧
    (s.currentStepIndex = s.steps.length ↔ s.completed = true) ∧
    s.isActive = !s.completed

/-! ### Helper lemmas -/

lemma lt_of_getElem?_eq_some {l : List DrillStep} {n : Nat} {a : DrillStep}
    (h : l[n]? = some a) : n < l.length := by
  by_contra hn
  push_neg at hn
  rw [List.getElem?_eq_none hn] at h
  cases h

lemma applyShot_not_active {s : DrillSession} (e : Shot) (h : s.isActive = false) :
    applyShot s e = some s := by
  simp [applyShot, h]

lemma applyShot_mismatch {s : DrillSession} {e : Shot} {step : DrillStep}
    (hAct : s.isActive = true)
    (hStep : s.steps[s.currentStepIndex]? = some step)
    (hPos : e.position ≠ step.position) :
    applyShot s e = some { s with shots := s.shots ++ [e] } := by
  simp only [applyShot, hAct, hStep]
  simp [hPos]

lemma applyShot_match_eq {s : DrillSession} {e : Shot} {step : DrillStep}
    (hAct : s.isActive = true)
    (hStep : s.steps[s.currentStepIndex]? = some step)
    (hPos : e.position = step.position) :
    applyShot s e =
      if thresholdMet step.targetAttempts (countPos (s.shots ++ [e]) step.position)
         || thresholdMet step.targetMakes (countMakes (s.shots ++ [e]) step.position) then
        if s.steps.length ≤ s.currentStepIndex + 1 then
          some { s with shots := s.shots ++ [e],
                        currentStepIndex := s.currentStepIndex + 1,
                        isActive := false, completed := true }
        else
          some { s with shots := s.shots ++ [e],
                        currentStepIndex := s.currentStepIndex + 1 }
      else some { s with shots := s.shots ++ [e] } := by
  simp only [applyShot, hAct, hStep]
  simp [hPos]

/-- Exhaustive case analysis of a successful `applyShot` call. -/
lemma applyShot_cases {s : DrillSession} {e : Shot} {s' : DrillSession}
    (h : applyShot s e = some s') :
    (s.isActive = false ∧ s' = s) ∨
    (s.isActive = true ∧ s.currentStepIndex < s.steps.length ∧
      (s' = { s with shots := s.shots ++ [e] } ∨
       (s.currentStepIndex + 1 < s.steps.length ∧
          s' = { s with shots := s.shots ++ [e],
                        currentStepIndex := s.currentStepIndex + 1 }) ∨
       (s.currentStepIndex + 1 = s.steps.length ∧
          s' = { s with shots := s.shots ++ [e],
                        currentStepIndex := s.currentStepIndex + 1,
                        isActive := false, completed := true }))) := by
  by_cases hb : s.isActive = false
  · left
    rw [applyShot_not_active e hb] at h
    exact ⟨hb, (Option.some_inj.mp h).symm⟩
  · have hb' : s.isActive = true := by
      revert hb; cases s.isActive <;> simp
    right
    cases hg : s.steps[s.currentStepIndex]? with
    | none =>
      rw [show applyShot s e = none by simp only [applyShot, hb', hg]; simp] at h
      cases h
    | some step =>
      refine ⟨hb', lt_of_getElem?_eq_some hg, ?_⟩
      by_cases hp : e.position = step.position
      · rw [applyShot_match_eq hb' hg hp] at h
        split_ifs at h with hc hlen
        · right; right
          have hlt := lt_of_getElem?_eq_some hg
          exact ⟨by omega, (Option.some_inj.mp h).symm⟩
        · right; left
          exact ⟨by omega, (Option.some_inj.mp h).symm⟩
        · left; exact (Option.some_inj.mp h).symm
      · rw [applyShot_mismatch hb' hg hp] at h
        left; exact (Option.some_inj.mp h).symm

lemma applyShots_nil (s : DrillSession) : applyShots s [] = some s := rfl

lemma foldl_applyShot_none (l : List Shot) :
    l.foldl (fun acc e => acc.bind (fun st => applyShot st e)) none = none := by
  induction l with
  | nil => rfl
  | cons e l ih => simpa using ih

lemma applyShots_cons (s : DrillSession) (e : Shot) (l : List Shot) :
    applyShots s (e :: l) = (applyShot s e).bind (fun st => applyShots st l) := by
  unfold applyShots
  rw [List.foldl_cons]
  cases h : applyShot s e with
  | none => simp [h, foldl_applyShot_none]
  | some s1 => simp [h]

lemma applyShots_append_single (s : DrillSession) (l : List Shot) (x : Shot) :
    applyShots s (l ++ [x]) = (applyShots s l).bind (fun st => applyShot st x) := by
  unfold applyShots
  rw [List.foldl_append]
  rfl

lemma thresholdMet_none (c : Nat) : thresholdMet none c = false := rfl

lemma thresholdMet_some_iff {t : Int} {c : Nat} :
    thresholdMet (some t) c = true ↔ (t ≠ 0 ∧ t ≤ (c : Int)) := by
  simp [thresholdMet]

lemma thresholdMet_some_false_of_lt {t : Int} {c : Nat} (h : (c : Int) < t) :
    thresholdMet (some t) c = false := by
  simp only [thresholdMet]
  simp
  intro _
  omega

lemma orThreshold_iff (A M : Option Int) (a m : Nat) :
    (thresholdMet A a || thresholdMet M m) = true ↔
      ((∃ t, A = some t ∧ t ≠ 0 ∧ t ≤ (a : Int)) ∨
       (∃ t, M = some t ∧ t ≠ 0 ∧ t ≤ (m : Int))) := by
  cases A <;> cases M <;> simp [thresholdMet]

lemma applyShot_stay {s : DrillSession} {e : Shot} (step : DrillStep)
    (hAct : s.isActive = true)
    (hStep : s.steps[s.currentStepIndex]? = some step)
    (hPos : e.position = step.position)
    (hcond : (thresholdMet step.targetAttempts (countPos (s.shots ++ [e]) step.position)
       || thresholdMet step.targetMakes (countMakes (s.shots ++ [e]) step.position)) = false) :
    applyShot s e = some { s with shots := s.shots ++ [e] } := by
  rw [applyShot_match_eq hAct hStep hPos, hcond]
  rfl

lemma applyShot_advance {s : DrillSession} {e : Shot} (step : DrillStep)
    (hAct : s.isActive = true)
    (hStep : s.steps[s.currentStepIndex]? = some step)
    (hPos : e.position = step.position)
    (hcond : (thresholdMet step.targetAttempts (countPos (s.shots ++ [e]) step.position)
       || thresholdMet step.targetMakes (countMakes (s.shots ++ [e]) step.position)) = true)
    (hlen : s.currentStepIndex + 1 < s.steps.length) :
    applyShot s e = some { s with shots := s.shots ++ [e],
                                  currentStepIndex := s.currentStepIndex + 1 } := by
  rw [applyShot_match_eq hAct hStep hPos, hcond]
  rw [if_pos rfl, if_neg (by omega)]

lemma applyShot_finish {s : DrillSession} {e : Shot} (step : DrillStep)
    (hAct : s.isActive = true)
    (hStep : s.steps[s.currentStepIndex]? = some step)
    (hPos : e.position = step.position)
    (hcond : (thresholdMet step.targetAttempts (countPos (s.shots ++ [e]) step.position)
       || thresholdMet step.targetMakes (countMakes (s.shots ++ [e]) step.position)) = true)
    (hlen : s.steps.length ≤ s.currentStepIndex + 1) :
    applyShot s e = some { s with shots := s.shots ++ [e],
                                  currentStepIndex := s.currentStepIndex + 1,
                                  isActive := false, completed := true } := by
  rw [applyShot_match_eq hAct hStep hPos, hcond]
  rw [if_pos rfl, if_pos hlen]

lemma applyShot_advance_iff {s : DrillSession} {e : Shot} {step : DrillStep}
    (hAct : s.isActive = true)
    (hStep : s.steps[s.currentStepIndex]? = some step)
    (hPos : e.position = step.position) :
    ∃ s', applyShot s e = some s' ∧ s'.shots = s.shots ++ [e] ∧
      (s'.currentStepIndex = s.currentStepIndex + 1 ↔
        (thresholdMet step.targetAttempts (countPos (s.shots ++ [e]) step.position)
         || thresholdMet step.targetMakes (countMakes (s.shots ++ [e]) step.position)) = true) := by
  rw [applyShot_match_eq hAct hStep hPos]
  split_ifs with hc hlen
  · exact ⟨_, rfl, rfl, iff_of_true rfl hc⟩
  · exact ⟨_, rfl, rfl, iff_of_true rfl hc⟩
  · exact ⟨_, rfl, rfl, iff_of_false (by intro hEq; simp at hEq) hc⟩

lemma countPos_all {l : List Shot} {z : CourtPosition} (h : ∀ x ∈ l, x.position = z) :
    countPos l z = l.length := by
  unfold countPos
  rw [List.filter_eq_self.mpr (fun a ha => by simp [h a ha])]

lemma c10_partial (id : String) (z : CourtPosition) (T : Nat) :
    ∀ l : List Shot, (∀ x ∈ l, x.position = z) → l.length < T →
      applyShots (startDrill id [⟨z, some (T : Int), none⟩, ⟨z, some (T : Int), none⟩]) l =
        some ⟨id, "Training Session",
          [⟨z, some (T : Int), none⟩, ⟨z, some (T : Int), none⟩], 0, l, true, false⟩ := by
  intro l
  induction l using List.reverseRecOn with
  | nil => intro _ _; rfl
  | append_singleton l x ih =>
    intro hall hlen
    have hl : l.length < T := by simp at hlen; omega
    rw [applyShots_append_single,
      ih (fun a ha => hall a (List.mem_append_left _ ha)) hl, Option.some_bind]
    have hcp : countPos (l ++ [x]) z = l.length + 1 := by
      rw [countPos_all hall]; simp
    exact applyShot_stay ⟨z, some (T : Int), none⟩ rfl rfl
      (hall x (List.mem_append_right _ (List.mem_singleton_self x)))
      (by
        dsimp only
        rw [hcp, thresholdMet_none, Bool.or_false]
        exact thresholdMet_some_false_of_lt (by simp at hlen; push_cast; omega))

lemma c10_boundary (id : String) (z : CourtPosition) (T : Nat) (hT : 0 < T) :
    ∀ l : List Shot, (∀ x ∈ l, x.position = z) → l.length = T →
      applyShots (startDrill id [⟨z, some (T : Int), none⟩, ⟨z, some (T : Int), none⟩]) l =
        some ⟨id, "Training Session",
          [⟨z, some (T : Int), none⟩, ⟨z, some (T : Int), none⟩], 1, l, true, false⟩ := by
  intro l
  induction l using List.reverseRecOn with
  | nil => intro _ h0; exfalso; simp at h0; omega
  | append_singleton l x ih =>
    intro hall hlen
    have hl : l.length < T := by simp at hlen; omega
    rw [applyShots_append_single,
      c10_partial id z T l (fun a ha => hall a (List.mem_append_left _ ha)) hl,
      Option.some_bind]
    have hcp : countPos (l ++ [x]) z = T := by
      rw [countPos_all hall]; simp at hlen ⊢; omega
    exact applyShot_advance ⟨z, some (T : Int), none⟩ rfl rfl
      (hall x (List.mem_append_right _ (List.mem_singleton_self x)))
      (by
        dsimp only
        rw [hcp, thresholdMet_none, Bool.or_false]
        exact thresholdMet_some_iff.mpr ⟨by omega, le_refl _⟩)
      (by simp)

/-! ### Claims -/

/-- Claim C2: for a session with `isActive = false` every shot event is a
no-op: `applyShot` returns the session itself unchanged (and in
particular raises no error, modelled by the `some` result). -/
theorem applyShot_inactive_noop (s : DrillSession) (e : Shot)
    (h : s.isActive = false) : applyShot s e = some s :=
  applyShot_not_active e h

/-- Witness for C2 on a concrete completed (hence inactive) session. -/
theorem applyShot_inactive_noop_witness :
    applyShot ⟨"c2", "Training Session", [⟨CourtPosition.CENTER, some 3, none⟩], 1, [], false, true⟩
        ⟨"w2", ShotResult.MAKE, CourtPosition.CENTER, 5⟩ =
      some ⟨"c2", "Training Session", [⟨CourtPosition.CENTER, some 3, none⟩], 1, [], false, true⟩ :=
  applyShot_inactive_noop _ _ rfl

/-- Claim C3: for an active session, a shot whose zone differs from the
current step's zone is appended to the log and nothing else changes:
step pointer, flags and program all stay as they were. -/
theorem applyShot_zone_mismatch_frame (s : DrillSession) (e : Shot) (step : DrillStep)
    (hAct : s.isActive = true)
    (hStep : s.steps[s.currentStepIndex]? = some step)
    (hPos : e.position ≠ step.position) :
    ∃ s', applyShot s e = some s' ∧ s'.shots = s.shots ++ [e] ∧
      s'.currentStepIndex = s.currentStepIndex ∧ s'.isActive = s.isActive ∧
      s'.completed = s.completed ∧ s'.steps = s.steps :=
  ⟨_, applyShot_mismatch hAct hStep hPos, rfl, rfl, rfl, rfl, rfl⟩

/-- Witness for C3: an off-zone shot against a concrete active session. -/
theorem applyShot_zone_mismatch_frame_witness :
    ∃ s', applyShot ⟨"c3", "Training Session", [⟨CourtPosition.LEFT, some 2, none⟩], 0, [], true, false⟩
            ⟨"w3", ShotResult.MAKE, CourtPosition.RIGHT, 0⟩ = some s' ∧
      s'.shots = ([] : List Shot) ++ [⟨"w3", ShotResult.MAKE, CourtPosition.RIGHT, 0⟩] ∧
      s'.currentStepIndex = 0 ∧ s'.isActive = true ∧ s'.completed = false ∧
      s'.steps = [⟨CourtPosition.LEFT, some 2, none⟩] :=
  applyShot_zone_mismatch_frame _ _ ⟨CourtPosition.LEFT, some 2, none⟩ rfl rfl (by decide)

/-- Claim C5: one `applyShot` call leaves `currentStepIndex` unchanged or
raises it by exactly one; consequently the index is non-decreasing over
any sequence of calls. -/
theorem currentStepIndex_monotone :
    (∀ (s : DrillSession) (e : Shot) (s' : DrillSession), applyShot s e = some s' →
       s'.currentStepIndex = s.currentStepIndex ∨
         s'.currentStepIndex = s.currentStepIndex + 1) ∧
    (∀ (s : DrillSession) (l : List Shot) (s' : DrillSession), applyShots s l = some s' →
       s.currentStepIndex ≤ s'.currentStepIndex) := by
  have single : ∀ (s : DrillSession) (e : Shot) (s' : DrillSession), applyShot s e = some s' →
      s'.currentStepIndex = s.currentStepIndex ∨
        s'.currentStepIndex = s.currentStepIndex + 1 := by
    intro s e s' h
    rcases applyShot_cases h with ⟨_, rfl⟩ | ⟨_, _, rfl | ⟨_, rfl⟩ | ⟨_, rfl⟩⟩
    · exact Or.inl rfl
    · exact Or.inl rfl
    · exact Or.inr rfl
    · exact Or.inr rfl
  refine ⟨single, ?_⟩
  intro s l
  induction l generalizing s with
  | nil =>
    intro s' h
    rw [applyShots_nil] at h
    cases h
    exact le_refl _
  | cons e l ih =>
    intro s' h
    rw [applyShots_cons] at h
    cases he : applyShot s e with
    | none => rw [he] at h; cases h
    | some s1 =>
      rw [he] at h
      have h' : applyShots s1 l = some s' := h
      have h1 := ih s1 s' h'
      rcases single s e s1 he with heq | heq <;> omega

/-- Witness for C5: both conjuncts applied to a concrete one-step session
and the shot that completes it. -/
theorem currentStepIndex_monotone_witness :
    ((⟨"c5", "Training Session", [⟨CourtPosition.CENTER, some 1, none⟩], 1,
        [⟨"w5", ShotResult.MAKE, CourtPosition.CENTER, 0⟩], false, true⟩ :
        DrillSession).currentStepIndex =
      (⟨"c5", "Training Session", [⟨CourtPosition.CENTER, some 1, none⟩], 0, [], true, false⟩ :
        DrillSession).currentStepIndex ∨
     (⟨"c5", "Training Session", [⟨CourtPosition.CENTER, some 1, none⟩], 1,
        [⟨"w5", ShotResult.MAKE, CourtPosition.CENTER, 0⟩], false, true⟩ :
        DrillSession).currentStepIndex =
      (⟨"c5", "Training Session", [⟨CourtPosition.CENTER, some 1, none⟩], 0, [], true, false⟩ :
        DrillSession).currentStepIndex + 1) ∧
    (⟨"c5", "Training Session", [⟨CourtPosition.CENTER, some 1, none⟩], 0, [], true, false⟩ :
        DrillSession).currentStepIndex ≤
      (⟨"c5", "Training Session", [⟨CourtPosition.CENTER, some 1, none⟩], 1,
        [⟨"w5", ShotResult.MAKE, CourtPosition.CENTER, 0⟩], false, true⟩ :
        DrillSession).currentStepIndex :=
  ⟨currentStepIndex_monotone.1 _ ⟨"w5", ShotResult.MAKE, CourtPosition.CENTER, 0⟩ _ rfl,
   currentStepIndex_monotone.2 _ [⟨"w5", ShotResult.MAKE, CourtPosition.CENTER, 0⟩] _ rfl⟩

/-- Claim C6: `completed` never reverts once true (so it flips from false
to true on at most one call per session), and on the call that sets it
the session lands on `currentStepIndex = steps.length` with
`isActive = false`. -/
theorem completed_terminal_unique :
    (∀ (s : DrillSession) (e : Shot) (s' : DrillSession), applyShot s e = some s' →
       (s.completed = true → s'.completed = true) ∧
       (s.completed = false → s'.completed = true →
          s'.currentStepIndex = s.steps.length ∧ s'.isActive = false)) ∧
    (∀ (s : DrillSession) (l : List Shot) (s' : DrillSession), applyShots s l = some s' →
       s.completed = true → s'.completed = true) := by
  have single : ∀ (s : DrillSession) (e : Shot) (s' : DrillSession), applyShot s e = some s' →
      (s.completed = true → s'.completed = true) ∧
      (s.completed = false → s'.completed = true →
         s'.currentStepIndex = s.steps.length ∧ s'.isActive = false) := by
    intro s e s' h
    rcases applyShot_cases h with ⟨_, rfl⟩ | ⟨hAct, hlt, rfl | ⟨hlt2, rfl⟩ | ⟨hleq, rfl⟩⟩
    · exact ⟨fun hc => hc, fun hf ht => absurd (hf ▸ ht) (by simp)⟩
    · exact ⟨fun hc => hc, fun hf ht => absurd (hf ▸ ht) (by simp)⟩
    · exact ⟨fun hc => hc, fun hf ht => absurd (hf ▸ ht) (by simp)⟩
    · exact ⟨fun _ => rfl, fun _ _ => ⟨hleq, rfl⟩⟩
  refine ⟨single, ?_⟩
  intro s l
  induction l generalizing s with
  | nil =>
    intro s' h hc
    rw [applyShots_nil] at h
    cases h
    exact hc
  | cons e l ih =>
    intro s' h hc
    rw [applyShots_cons] at h
    cases he : applyShot s e with
    | none => rw [he] at h; cases h
    | some s1 =>
      rw [he] at h
      have h' : applyShots s1 l = some s' := h
      exact ih s1 s' h' ((single s e s1 he).1 hc)

/-- Witness for C6: the terminal transition of a concrete one-step
session, plus completed-persistence along a one-event sequence. -/
theorem completed_terminal_unique_witness :
    ((⟨"c6", "Training Session", [⟨CourtPosition.CENTER, some 1, none⟩], 1,
        [⟨"w6", ShotResult.MISS, CourtPosition.CENTER, 0⟩], false, true⟩ :
        DrillSession).currentStepIndex =
      (⟨"c6", "Training Session", [⟨CourtPosition.CENTER, some 1, none⟩], 0, [], true, false⟩ :
        DrillSession).steps.length ∧
     (⟨"c6", "Training Session", [⟨CourtPosition.CENTER, some 1, none⟩], 1,
        [⟨"w6", ShotResult.MISS, CourtPosition.CENTER, 0⟩], false, true⟩ :
        DrillSession).isActive = false) ∧
    (⟨"c6", "Training Session", [⟨CourtPosition.CENTER, some 1, none⟩], 1,
        [⟨"w6", ShotResult.MISS, CourtPosition.CENTER, 0⟩], false, true⟩ :
        DrillSession).completed = true :=
  ⟨((completed_terminal_unique.1
      ⟨"c6", "Training Session", [⟨CourtPosition.CENTER, some 1, none⟩], 0, [], true, false⟩
      ⟨"w6", ShotResult.MISS, CourtPosition.CENTER, 0⟩
      ⟨"c6", "Training Session", [⟨CourtPosition.CENTER, some 1, none⟩], 1,
        [⟨"w6", ShotResult.MISS, CourtPosition.CENTER, 0⟩], false, true⟩ rfl).2
      rfl rfl),
   completed_terminal_unique.2
      ⟨"c6", "Training Session", [⟨CourtPosition.CENTER, some 1, none⟩], 1,
        [⟨"w6", ShotResult.MISS, CourtPosition.CENTER, 0⟩], false, true⟩
      ([] : List Shot) _ rfl rfl⟩

/-- Claim C7: the engine invariant — index within `[0, steps.length]`,
index at `steps.length` exactly in the completed state, and `isActive`
the negation of `completed` — holds for a fresh session over a non-empty
program and is preserved by every `applyShot` call. -/
theorem sessionInv_start_preserved :
    (∀ (id : String) (steps : List DrillStep), steps ≠ [] →
       sessionInv (startDrill id steps)) ∧
    (∀ (s : DrillSession) (e : Shot) (s' : DrillSession),
       sessionInv s → applyShot s e = some s' → sessionInv s') := by
  constructor
  · intro id steps hne
    exact ⟨Nat.zero_le _,
      iff_of_false (fun h => hne (List.length_eq_zero.mp h.symm)) Bool.false_ne_true,
      rfl⟩
  · intro s e s' hInv h
    obtain ⟨h1, h2, h3⟩ := hInv
    rcases applyShot_cases h with ⟨_, rfl⟩ | ⟨hAct, hlt, rfl | ⟨hlt2, rfl⟩ | ⟨hleq, rfl⟩⟩
    · exact ⟨h1, h2, h3⟩
    · exact ⟨h1, h2, h3⟩
    · have hcf : s.completed = false := by
        rw [hAct] at h3
        cases hc : s.completed
        · rfl
        · rw [hc] at h3; simp at h3
      exact ⟨by simp; omega,
        iff_of_false (by simp; omega) (by simp [hcf]),
        by simp [hAct, hcf]⟩
    · exact ⟨by simp; omega, iff_of_true (by simp [hleq]) rfl, rfl⟩

/-- Witness for C7: the invariant established at start of a concrete
program and carried through the completing shot. -/
theorem sessionInv_start_preserved_witness :
    sessionInv (startDrill "c7" [⟨CourtPosition.CENTER, some 1, none⟩]) ∧
    sessionInv ⟨"c7", "Training Session", [⟨CourtPosition.CENTER, some 1, none⟩], 1,
      [⟨"w7", ShotResult.MAKE, CourtPosition.CENTER, 0⟩], false, true⟩ :=
  ⟨sessionInv_start_preserved.1 "c7" [⟨CourtPosition.CENTER, some 1, none⟩] (by decide),
   sessionInv_start_preserved.2 (startDrill "c7" [⟨CourtPosition.CENTER, some 1, none⟩])
     ⟨"w7", ShotResult.MAKE, CourtPosition.CENTER, 0⟩ _
     (sessionInv_start_preserved.1 "c7" [⟨CourtPosition.CENTER, some 1, none⟩] (by decide))
     rfl⟩

/-- Claim C1 counterexample: a step carrying both thresholds
(`targetAttempts = 5`, `targetMakes = 1`) completes on the very first
make at its zone — the index advances to 1 although only 1 of the 5
required attempts has been logged, so the attempt-based policy did not
decide completion. -/
theorem attempt_priority_counterexample :
    (⟨"c1", "Training Session", [⟨CourtPosition.CENTER, some 5, some 1⟩], 0, [], true, false⟩ :
        DrillSession).steps = [⟨CourtPosition.CENTER, some 5, some 1⟩] ∧
    countPos ([] ++ [⟨"c1e", ShotResult.MAKE, CourtPosition.CENTER, 0⟩]) CourtPosition.CENTER = 1 ∧
    (applyShot
        ⟨"c1", "Training Session", [⟨CourtPosition.CENTER, some 5, some 1⟩], 0, [], true, false⟩
        ⟨"c1e", ShotResult.MAKE, CourtPosition.CENTER, 0⟩).map
      DrillSession.currentStepIndex = some 1 := by
  decide

/-- Claim C1 (amended): for an active session whose current step defines
a (truthy) attempt threshold, an on-zone shot completes the step exactly
when the attempt count reaches that threshold OR a make threshold is
also present (truthy) and the make count reaches it; the attempt check
is merely evaluated first, it does not suppress the make check. -/
theorem applyShot_attempt_threshold_char (s : DrillSession) (e : Shot) (step : DrillStep)
    (Ta : Int) (hAct : s.isActive = true)
    (hStep : s.steps[s.currentStepIndex]? = some step)
    (hPos : e.position = step.position)
    (hTa : step.targetAttempts = some Ta) (hTa0 : Ta ≠ 0) :
    ∃ s', applyShot s e = some s' ∧
      (s'.currentStepIndex = s.currentStepIndex + 1 ↔
        (Ta ≤ (countPos (s.shots ++ [e]) step.position : Int) ∨
         ∃ Tm, step.targetMakes = some Tm ∧ Tm ≠ 0 ∧
           Tm ≤ (countMakes (s.shots ++ [e]) step.position : Int))) := by
  obtain ⟨s', hap, hsh, hiff⟩ := applyShot_advance_iff hAct hStep hPos
  refine ⟨s', hap, ?_⟩
  rw [hiff, orThreshold_iff, hTa]
  simp [hTa0]

/-- Witness for the amended C1 on the both-thresholds step: the make
branch fires although the attempt count is below its threshold. -/
theorem applyShot_attempt_threshold_char_witness :
    ∃ s', applyShot
        ⟨"c1w", "Training Session", [⟨CourtPosition.CENTER, some 5, some 1⟩], 0, [], true, false⟩
        ⟨"c1we", ShotResult.MAKE, CourtPosition.CENTER, 0⟩ = some s' ∧
      (s'.currentStepIndex =
          (⟨"c1w", "Training Session", [⟨CourtPosition.CENTER, some 5, some 1⟩], 0, [], true,
            false⟩ : DrillSession).currentStepIndex + 1 ↔
        ((5 : Int) ≤ (countPos ([] ++ [⟨"c1we", ShotResult.MAKE, CourtPosition.CENTER, 0⟩])
            CourtPosition.CENTER : Int) ∨
         ∃ Tm, (⟨CourtPosition.CENTER, some 5, some 1⟩ : DrillStep).targetMakes = some Tm ∧
           Tm ≠ 0 ∧
           Tm ≤ (countMakes ([] ++ [⟨"c1we", ShotResult.MAKE, CourtPosition.CENTER, 0⟩])
             CourtPosition.CENTER : Int))) :=
  applyShot_attempt_threshold_char
    ⟨"c1w", "Training Session", [⟨CourtPosition.CENTER, some 5, some 1⟩], 0, [], true, false⟩
    ⟨"c1we", ShotResult.MAKE, CourtPosition.CENTER, 0⟩
    ⟨CourtPosition.CENTER, some 5, some 1⟩ 5 rfl rfl rfl rfl (by decide)

/-- Claim C4: for an active session whose current step is make-based
(make threshold `Tm > 0`, no attempt threshold), an on-zone shot is
appended to the log and completes the step exactly when the make count
at the zone reaches `Tm`; a miss leaves the make count unchanged. -/
theorem applyShot_make_policy (s : DrillSession) (e : Shot) (step : DrillStep)
    (Tm : Int) (hAct : s.isActive = true)
    (hStep : s.steps[s.currentStepIndex]? = some step)
    (hPos : e.position = step.position)
    (hTa : step.targetAttempts = none) (hTm : step.targetMakes = some Tm)
    (hTm0 : 0 < Tm) :
    ∃ s', applyShot s e = some s' ∧ s'.shots = s.shots ++ [e] ∧
      (s'.currentStepIndex = s.currentStepIndex + 1 ↔
        Tm ≤ (countMakes (s.shots ++ [e]) step.position : Int)) ∧
      (e.result = ShotResult.MISS →
        countMakes (s.shots ++ [e]) step.position = countMakes s.shots step.position) := by
  obtain ⟨s', hap, hsh, hiff⟩ := applyShot_advance_iff hAct hStep hPos
  refine ⟨s', hap, hsh, ?_, ?_⟩
  · rw [hiff, orThreshold_iff, hTa, hTm]
    simp [show Tm ≠ 0 from by omega]
  · intro hm
    simp [countMakes, hm]

/-- Witness for C4: a make-based step on a concrete session, the second
make reaching the threshold. -/
theorem applyShot_make_policy_witness :
    ∃ s', applyShot
        ⟨"c4", "Training Session", [⟨CourtPosition.LEFT, none, some 2⟩], 0,
          [⟨"a4", ShotResult.MAKE, CourtPosition.LEFT, 0⟩], true, false⟩
        ⟨"b4", ShotResult.MAKE, CourtPosition.LEFT, 1⟩ = some s' ∧
      s'.shots = [⟨"a4", ShotResult.MAKE, CourtPosition.LEFT, 0⟩] ++
        [⟨"b4", ShotResult.MAKE, CourtPosition.LEFT, 1⟩] ∧
      (s'.currentStepIndex =
          (⟨"c4", "Training Session", [⟨CourtPosition.LEFT, none, some 2⟩], 0,
            [⟨"a4", ShotResult.MAKE, CourtPosition.LEFT, 0⟩], true, false⟩ :
            DrillSession).currentStepIndex + 1 ↔
        (2 : Int) ≤ (countMakes ([⟨"a4", ShotResult.MAKE, CourtPosition.LEFT, 0⟩] ++
          [⟨"b4", ShotResult.MAKE, CourtPosition.LEFT, 1⟩]) CourtPosition.LEFT : Int)) ∧
      ((⟨"b4", ShotResult.MAKE, CourtPosition.LEFT, 1⟩ : Shot).result = ShotResult.MISS →
        countMakes ([⟨"a4", ShotResult.MAKE, CourtPosition.LEFT, 0⟩] ++
            [⟨"b4", ShotResult.MAKE, CourtPosition.LEFT, 1⟩]) CourtPosition.LEFT =
          countMakes [⟨"a4", ShotResult.MAKE, CourtPosition.LEFT, 0⟩] CourtPosition.LEFT) :=
  applyShot_make_policy
    ⟨"c4", "Training Session", [⟨CourtPosition.LEFT, none, some 2⟩], 0,
      [⟨"a4", ShotResult.MAKE, CourtPosition.LEFT, 0⟩], true, false⟩
    ⟨"b4", ShotResult.MAKE, CourtPosition.LEFT, 1⟩
    ⟨CourtPosition.LEFT, none, some 2⟩ 2 rfl rfl rfl rfl rfl (by decide)

/-- Claim C8 counterexample: with no session the instruction text is the
string "Select a drill", not the string "select a program". -/
theorem getInstruction_no_session_counterexample :
    getInstruction none = "Select a drill" ∧
    getInstruction none ≠ "select a program" := by
  refine ⟨rfl, ?_⟩
  decide

/-- Claim C8 (amended): `getInstruction` is a pure function of the
session: with no session it returns "Select a drill"; for a completed
session it returns the completion message; otherwise it formats the
active step's zone with a fraction current/target where current matches
the step's (truthy) make threshold if one is defined and is the attempt
count otherwise; after MAKE then MISS at LEFT against the two-step
make-based demo program it reports 1 of 2 for zone LEFT. -/
theorem getInstruction_spec :
    getInstruction none = "Select a drill" ∧
    (∀ s : DrillSession, s.completed = true → getInstruction (some s) = "Drill Complete!") ∧
    (∀ (s : DrillSession) (step : DrillStep) (m : Int), s.completed = false →
       s.steps[s.currentStepIndex]? = some step → step.targetMakes = some m → m ≠ 0 →
       getInstruction (some s) =
         "Move to " ++ posName step.position ++ ": " ++
           toString (countMakes s.shots step.position) ++ " / " ++ toString m) ∧
    (∀ (s : DrillSession) (step : DrillStep) (a : Int), s.completed = false →
       s.steps[s.currentStepIndex]? = some step →
       thresholdTruthy step.targetMakes = false →
       step.targetAttempts = some a →
       getInstruction (some s) =
         "Move to " ++ posName step.position ++ ": " ++
           toString (countPos s.shots step.position) ++ " / " ++ toString a) ∧
    (applyShots
        (startDrill "c8" [⟨CourtPosition.LEFT, none, some 2⟩, ⟨CourtPosition.RIGHT, none, some 2⟩])
        [⟨"a8", ShotResult.MAKE, CourtPosition.LEFT, 0⟩,
         ⟨"b8", ShotResult.MISS, CourtPosition.LEFT, 1⟩]).map
      (fun s => getInstruction (some s)) = some "Move to LEFT: 1 / 2" := by
  refine ⟨rfl, ?_, ?_, ?_, by decide⟩
  · intro s h
    simp [getInstruction, h]
  · intro s step m hc hstep hm hm0
    simp only [getInstruction, hc, hstep]
    simp [thresholdTruthy, hm, hm0, countMakes, showOptInt]
  · intro s step a hc hstep hm ha
    simp only [getInstruction, hc, hstep]
    simp [hm, ha, countPos, showOptInt]

/-- Witness for the amended C8: the make-based display branch applied to
the concrete mid-drill session of the demo scenario. -/
theorem getInstruction_spec_witness :
    getInstruction (some
      ⟨"c8w", "Training Session",
        [⟨CourtPosition.LEFT, none, some 2⟩, ⟨CourtPosition.RIGHT, none, some 2⟩], 0,
        [⟨"a8w", ShotResult.MAKE, CourtPosition.LEFT, 0⟩,
         ⟨"b8w", ShotResult.MISS, CourtPosition.LEFT, 1⟩], true, false⟩) =
      "Move to LEFT: 1 / 2" :=
  (getInstruction_spec.2.2.1
    ⟨"c8w", "Training Session",
      [⟨CourtPosition.LEFT, none, some 2⟩, ⟨CourtPosition.RIGHT, none, some 2⟩], 0,
      [⟨"a8w", ShotResult.MAKE, CourtPosition.LEFT, 0⟩,
       ⟨"b8w", ShotResult.MISS, CourtPosition.LEFT, 1⟩], true, false⟩
    ⟨CourtPosition.LEFT, none, some 2⟩ 2 rfl rfl rfl (by decide)).trans (by decide)

/-- Claim C9: the builder does not fail fast on every non-positive
threshold. The threshold input handler maps 0 to 1 but lets a negative
value through unchanged; `handleCreateCustom` then builds the program
without error, the session starts, and the invalid step completes on a
single missed shot mid-drill. -/
theorem negative_threshold_reaches_engine :
    thresholdInputUpdate (-2) = -2 ∧
    handleCreateCustom [CourtPosition.CENTER] true 5 (-2) =
      some [⟨CourtPosition.CENTER, none, some (-2)⟩] ∧
    thresholdInputUpdate 0 = 1 ∧
    (applyShot (startDrill "c9" [⟨CourtPosition.CENTER, none, some (-2)⟩])
        ⟨"m9", ShotResult.MISS, CourtPosition.CENTER, 0⟩).map
      DrillSession.completed = some true := by
  decide

/-- Claim C10: in the program `[{z, attemptsTarget = T}, {z, attemptsTarget = T}]`
the counts are cumulative over the whole log, so after any `T` shots at
zone `z` the session sits on step 1, and the very next shot at `z` —
shot `T + 1`, not shot `2T` — completes the second step and the whole
drill. -/
theorem same_zone_cumulative_counting (id : String) (z : CourtPosition) (T : Nat)
    (hT : 0 < T) (l : List Shot) (y : Shot)
    (hall : ∀ x ∈ l, x.position = z) (hlen : l.length = T) (hy : y.position = z) :
    applyShots (startDrill id [⟨z, some (T : Int), none⟩, ⟨z, some (T : Int), none⟩]) l =
      some ⟨id, "Training Session",
        [⟨z, some (T : Int), none⟩, ⟨z, some (T : Int), none⟩], 1, l, true, false⟩ ∧
    applyShots (startDrill id [⟨z, some (T : Int), none⟩, ⟨z, some (T : Int), none⟩])
        (l ++ [y]) =
      some ⟨id, "Training Session",
        [⟨z, some (T : Int), none⟩, ⟨z, some (T : Int), none⟩], 2, l ++ [y], false, true⟩ := by
  refine ⟨c10_boundary id z T hT l hall hlen, ?_⟩
  rw [applyShots_append_single, c10_boundary id z T hT l hall hlen, Option.some_bind]
  have hcp : countPos (l ++ [y]) z = T + 1 := by
    rw [countPos_all (by
      intro a ha
      rcases List.mem_append.mp ha with h | h
      · exact hall a h
      · rw [List.mem_singleton.mp h]; exact hy)]
    simp [hlen]
  exact applyShot_finish ⟨z, some (T : Int), none⟩ rfl rfl hy
    (by
      dsimp only
      rw [hcp, thresholdMet_none, Bool.or_false]
      exact thresholdMet_some_iff.mpr ⟨by omega, by push_cast; omega⟩)
    (by simp)

/-- Witness for C10 with `T = 2`: two misses at LEFT finish step 0, and a
third shot at LEFT finishes the whole two-step program. -/
theorem same_zone_cumulative_counting_witness :
    applyShots (startDrill "c10"
        [⟨CourtPosition.LEFT, some ((2 : Nat) : Int), none⟩,
         ⟨CourtPosition.LEFT, some ((2 : Nat) : Int), none⟩])
      [⟨"x1", ShotResult.MISS, CourtPosition.LEFT, 0⟩,
       ⟨"x2", ShotResult.MISS, CourtPosition.LEFT, 1⟩] =
      some ⟨"c10", "Training Session",
        [⟨CourtPosition.LEFT, some ((2 : Nat) : Int), none⟩,
         ⟨CourtPosition.LEFT, some ((2 : Nat) : Int), none⟩], 1,
        [⟨"x1", ShotResult.MISS, CourtPosition.LEFT, 0⟩,
         ⟨"x2", ShotResult.MISS, CourtPosition.LEFT, 1⟩], true, false⟩ ∧
    applyShots (startDrill "c10"
        [⟨CourtPosition.LEFT, some ((2 : Nat) : Int), none⟩,
         ⟨CourtPosition.LEFT, some ((2 : Nat) : Int), none⟩])
      ([⟨"x1", ShotResult.MISS, CourtPosition.LEFT, 0⟩,
        ⟨"x2", ShotResult.MISS, CourtPosition.LEFT, 1⟩] ++
       [⟨"x3", ShotResult.MISS, CourtPosition.LEFT, 2⟩]) =
      some ⟨"c10", "Training Session",
        [⟨CourtPosition.LEFT, some ((2 : Nat) : Int), none⟩,
         ⟨CourtPosition.LEFT, some ((2 : Nat) : Int), none⟩], 2,
        [⟨"x1", ShotResult.MISS, CourtPosition.LEFT, 0⟩,
         ⟨"x2", ShotResult.MISS, CourtPosition.LEFT, 1⟩] ++
        [⟨"x3", ShotResult.MISS, CourtPosition.LEFT, 2⟩], false, true⟩ :=
  same_zone_cumulative_counting "c10" CourtPosition.LEFT 2 (by decide)
    [⟨"x1", ShotResult.MISS, CourtPosition.LEFT, 0⟩,
     ⟨"x2", ShotResult.MISS, CourtPosition.LEFT, 1⟩]
    ⟨"x3", ShotResult.MISS, CourtPosition.LEFT, 2⟩
    (by decide) rfl rfl

end BallPoint
